import Mathlib

/-!
Verification development for the HTML page lifecycle / rendering engine of
the Lanette repository (`src/html-pages/html-page-base.ts`).

The TypeScript class `HtmlPageBase` is shallowly embedded as a Lean record
`Page` plus pure state-transition functions.  External collaborators
(the transport methods `Room.sendHtmlPage`, `Room.sayPrivateUhtml`,
`Room.closeHtmlPage`, the user directory `Users`, and the button builder
`Client.getQuietPmButton`) are modelled as an event trace, an explicit
lookup function, and a deterministic markup function respectively.
The per-page-type registry `pageList : Dict<HtmlPageBase>` together with
object identity of page instances is modelled as a `World`: a heap
(list of `Page` values indexed by position) and a partial map from
user ids to heap indices.
-/

set_option linter.unusedVariables false

namespace Lanette

/-- A room, as far as `HtmlPageBase` observes it: its id and optional alias
(`room.alias || room.id` in the constructor).  The alias follows the
source's string truthiness: the empty string counts as absent. -/
structure Room where
  id : String
  roomAlias : String
deriving Repr, DecidableEq

/-- An embedded component, as far as the base class observes it
(`component-base.ts` is an external collaborator): its sub-command token
and activation flag. -/
structure ComponentRec where
  componentCommand : String
  active : Bool
deriving Repr, DecidableEq

/-- A user as returned by the external `Users` directory; `staffVal` models
the result of `user.hasRank(room, 'driver') || user.isDeveloper()`. -/
structure UserV where
  id : String
  name : String
  staffVal : Bool
deriving Repr, DecidableEq

/-- Options record `IQuietPMButtonOptions` from the source; optional boolean fields model
`undefined` as `false` and the optional `style` models `undefined` as `""`
(the source only ever tests their truthiness). -/
structure IQuietPMButtonOptions where
  disabled : Bool := false
  enabledReadonly : Bool := false
  selected : Bool := false
  selectedAndDisabled : Bool := false
  style : String := ""
deriving Repr, DecidableEq

/-- Constant `CLOSE_COMMAND` from the source. -/
def CLOSE_COMMAND : String := "closehtmlpage"

/-- Constant `SWITCH_LOCATION_COMMAND` from the source. -/
def SWITCH_LOCATION_COMMAND : String := "switchhtmlpagelocation"

/-- Instance state of `HtmlPageBase`.  `commandPrefixStr` is the source's
command-prefix field (`Config.commandCharacter + baseCommand + " " +
(room.alias || room.id)`). -/
structure Page where
  pageId : String
  baseChatUhtmlName : String
  chatUhtmlName : String
  closed : Bool
  closeButtonHtml : String
  components : List ComponentRec
  globalRoomPage : Bool
  lastRender : String
  readonly : Bool
  showSwitchLocationButton : Bool
  switchLocationButtonHtml : String
  usedCommandAfterLastRender : Bool
  baseCommand : String
  commandPrefixStr : String
  room : Room
  isRoomStaff : Bool
  userName : String
  userId : String
deriving Repr, DecidableEq

/-- A call on one of the external transport collaborators. -/
inductive Event where
  /-- Call `room.sendHtmlPage(user, pageId, content)`: standalone delivery. -/
  | sendHtmlPage (userId pageId content : String)
  /-- Call `room.sayPrivateUhtml(user, uhtmlName, content)`: overlay delivery. -/
  | sayPrivateUhtml (userId uhtmlName content : String)
  /-- Call `room.closeHtmlPage(user, pageId)`: standalone retraction. -/
  | closeHtmlPage (userId pageId : String)
deriving Repr, DecidableEq

/-- Whether an event is a content delivery (standalone or overlay push),
as opposed to a retraction. -/
def Event.isDelivery : Event → Bool
  | .sendHtmlPage _ _ _ => true
  | .sayPrivateUhtml _ _ _ => true
  | .closeHtmlPage _ _ => false

/-- Number of delivery calls in a trace. -/
def deliveries (evs : List Event) : Nat :=
  (evs.filter Event.isDelivery).length

/-- The environment a single `send()` call runs in: the outcome of the
optional `beforeSend` hook (`none` when the concrete page type defines no
hook), whether `Users.get(this.userId)` resolves, and the string that
`this.render(onOpen)` computes (rendering is abstract in the base class,
so the computed content is an input of the model). -/
structure SendEnv where
  beforeSendResult : Option Bool
  userPresent : Bool
  render : String
deriving Repr, DecidableEq

/-- Method `HtmlPageBase.send(onOpen?)`.  Returns the updated page and the trace of
transport calls made. -/
def send (p : Page) (env : SendEnv) (onOpen : Bool) : Page × List Event :=
  if p.closed then (p, [])
  else if env.beforeSendResult = some false then (p, [])
  else if !env.userPresent then (p, [])
  else
    let render := env.render
    if render = p.lastRender && !p.usedCommandAfterLastRender then (p, [])
    else
      let p' := { p with lastRender := render, usedCommandAfterLastRender := false }
      if p'.chatUhtmlName ≠ "" then
        (p', [Event.sayPrivateUhtml p.userId p'.chatUhtmlName render])
      else
        (p', [Event.sendHtmlPage p.userId p.pageId render])

/-- Method `HtmlPageBase.open()`: `this.send(true)`. -/
def openPage (p : Page) (env : SendEnv) : Page × List Event :=
  send p env true

/-- A sequence of `send()` calls, each with its environment and `onOpen`
argument; the traces are concatenated in order. -/
def sendSeq (p : Page) (calls : List (SendEnv × Bool)) : Page × List Event :=
  match calls with
  | [] => (p, [])
  | c :: rest =>
    let r := send p c.1 c.2
    let r' := sendSeq r.1 rest
    (r'.1, r.2 ++ r'.2)

/-- Modelled from the spec: the Button Builder collaborator
(`Client.getQuietPmButton`, outside `src/`).  The spec only requires a pure,
deterministic markup function of its arguments (section 4.3), so it is
modelled as a concrete tagged concatenation of them. -/
def Client.getQuietPmButton (room : Room) (message label : String)
    (disabled : Bool) (style : String) : String :=
  "<button room=|" ++ room.id ++ "| msg=|" ++ message ++ "| label=|" ++ label ++
    "| disabled=|" ++ (if disabled then "1" else "0") ++ "| style=|" ++ style ++ "|>"

/-- Method `HtmlPageBase.getQuietPmButton(message, label, options?)`.  With no
options, both the `disabled` resolution and the style resolution are
skipped (every branch in the source is guarded by `options &&`). -/
def getQuietPmButton (p : Page) (message label : String)
    (options : Option IQuietPMButtonOptions) : String :=
  match options with
  | none => Client.getQuietPmButton p.room message label false ""
  | some o =>
    let disabled0 := o.disabled || o.selectedAndDisabled
    let disabled := if !disabled0 && !o.enabledReadonly && p.readonly then true else disabled0
    let style0 := o.style
    let style :=
      if o.selected || o.selectedAndDisabled then
        (if style0 ≠ "" && !style0.endsWith ";" then style0 ++ ";" else style0) ++
          "border-color: #ffffff;"
      else style0
    Client.getQuietPmButton p.room message label disabled style

/-- Method `HtmlPageBase.setCloseButton(options?)`. -/
def setCloseButton (p : Page) (options : Option IQuietPMButtonOptions) : Page :=
  if p.chatUhtmlName ≠ "" then
    { p with closeButtonHtml := "" }
  else
    { p with closeButtonHtml :=
        (getQuietPmButton p
          (p.commandPrefixStr ++ (if p.globalRoomPage then " " else ", ") ++ CLOSE_COMMAND)
          "Close page" options) }

/-- Method `HtmlPageBase.setSwitchLocationButton()`. -/
def setSwitchLocationButton (p : Page) : Page :=
  if p.showSwitchLocationButton then
    { p with switchLocationButtonHtml :=
        (getQuietPmButton p
          (p.commandPrefixStr ++ (if p.globalRoomPage then " " else ", ") ++
            SWITCH_LOCATION_COMMAND)
          ("Move to " ++ (if p.chatUhtmlName ≠ "" then "HTML page" else "chat")) none) }
  else
    { p with switchLocationButtonHtml := "" }

/-- Method `HtmlPageBase.setUser(userOrPlayer)`: stores name and id, then recomputes
`isRoomStaff` from a fresh `Users.get(name)` lookup (`users` is the external
directory). -/
def setUser (p : Page) (users : String → Option UserV) (u : UserV) : Page :=
  let p1 := { p with userName := u.name, userId := u.id }
  { p1 with isRoomStaff := match users u.name with
      | some v => v.staffVal
      | none => false }

/-- Method `HtmlPageBase.switchLocation()`.  Here `userPresent` in `env` models the two
`Users.get(this.userId)` lookups (one inside the nested `send()`, one after
it; a third inside `temporarilyClose()`, whose body is inlined here), which
all resolve identically during one synchronous call. -/
def switchLocation (p : Page) (env : SendEnv) : Page × List Event :=
  let closeHtmlPage := !(p.chatUhtmlName ≠ "")
  let p1 :=
    if p.chatUhtmlName ≠ "" then { p with chatUhtmlName := "" }
    else { p with chatUhtmlName := p.baseChatUhtmlName }
  let p2 := { p1 with usedCommandAfterLastRender := true }
  let p3 := setSwitchLocationButton p2
  let p4 := setCloseButton p3 none
  let r := send p4 env false
  let evs2 :=
    if env.userPresent then
      if closeHtmlPage then
        -- this.temporarilyClose(): Users.get resolves, so one retraction
        [Event.closeHtmlPage r.1.userId r.1.pageId]
      else
        [Event.sayPrivateUhtml r.1.userId r.1.baseChatUhtmlName
          "<div>Successfully moved to an HTML page.</div>"]
    else []
  (r.1, r.2 ++ evs2)

/-- Whether the standalone delivery channel is active (`chatUhtmlName` is
falsy, so `send` uses `room.sendHtmlPage`). -/
def standaloneActive (p : Page) : Bool := p.chatUhtmlName = ""

/-- Whether the overlay delivery channel is active (`chatUhtmlName` is
truthy, so `send` uses `room.sayPrivateUhtml`). -/
def overlayActive (p : Page) : Bool := p.chatUhtmlName ≠ ""

/-- The world a page-type's registry lives in: a heap of page instances
(a heap index models object identity, so a destroyed instance can still be
observed through old references), the `pageList` registry mapping user ids
to instances, and the external `Users` directory. -/
structure World where
  heap : List Page
  reg : String → Option Nat
  users : String → Option UserV

/-- The initial world for a page type: empty `pageList`, empty heap. -/
def initWorld (users : String → Option UserV) : World :=
  { heap := [], reg := fun _ => none, users := users }

/-- Effect of `destroy()` on the instance itself: `closed := true`, then
`Tools.unrefProperties(this, ['closed', 'pageId', 'userName', 'userId'])`
clears every other field (cleared references are modelled by the fields'
neutral values). -/
def destroyPage (p : Page) : Page :=
  { pageId := p.pageId
    baseChatUhtmlName := ""
    chatUhtmlName := ""
    closed := true
    closeButtonHtml := ""
    components := []
    globalRoomPage := false
    lastRender := ""
    readonly := false
    showSwitchLocationButton := false
    switchLocationButtonHtml := ""
    usedCommandAfterLastRender := false
    baseCommand := ""
    commandPrefixStr := ""
    room := { id := "", roomAlias := "" }
    isRoomStaff := false
    userName := p.userName
    userId := p.userId }

/-- Method `HtmlPageBase.destroy()` invoked on the instance at heap index `r`:
destroys its components (calls on the external component objects), removes
`pageList[this.userId]`, marks it closed and unrefs its fields. -/
def destroyRef (σ : World) (r : Nat) : World :=
  match σ.heap[r]? with
  | none => σ
  | some p =>
    { σ with
        heap := σ.heap.set r (destroyPage p)
        reg := fun k => if k = p.userId then none else σ.reg k }

/-- The field initialisers and the pre-registration part of the
`HtmlPageBase` constructor (`room`, `baseCommand`, command prefix,
`setUser`, `setCloseButton`); `pageId` is the abstract field the concrete
page type supplies.  `commandCharacter` models `Config.commandCharacter`. -/
def mkPage (commandCharacter : String) (room : Room) (u : UserV)
    (pageId baseCommand : String) (users : String → Option UserV) : Page :=
  let p : Page :=
    { pageId := pageId
      baseChatUhtmlName := ""
      chatUhtmlName := ""
      closed := false
      closeButtonHtml := ""
      components := []
      globalRoomPage := false
      lastRender := ""
      readonly := false
      showSwitchLocationButton := false
      switchLocationButtonHtml := ""
      usedCommandAfterLastRender := false
      baseCommand := baseCommand
      commandPrefixStr := commandCharacter ++ baseCommand ++ " " ++
        (if room.roomAlias ≠ "" then room.roomAlias else room.id)
      room := room
      isRoomStaff := false
      userName := ""
      userId := "" }
  let p1 := setUser p users u
  setCloseButton p1 none

/-- The registering tail of the `HtmlPageBase` constructor:
`if (userOrPlayer.id in pageList) pageList[userOrPlayer.id].destroy();
pageList[userOrPlayer.id] = this;`.  Returns the new world and the heap
index of the freshly constructed instance. -/
def register (σ : World) (commandCharacter : String) (room : Room) (u : UserV)
    (pageId baseCommand : String) : World × Nat :=
  let page := mkPage commandCharacter room u pageId baseCommand σ.users
  let σ1 :=
    match σ.reg u.id with
    | some r => destroyRef σ r
    | none => σ
  let ref := σ1.heap.length
  ({ σ1 with
      heap := σ1.heap ++ [page]
      reg := fun k => if k = u.id then some ref else σ1.reg k }, ref)

/-- The construction parameters of one `register` call. -/
structure RegInput where
  commandCharacter : String
  room : Room
  pageId : String
  baseCommand : String
deriving Repr, DecidableEq

/-- A sequence of page constructions for one identity `u`; returns the final
world and the heap indices of the constructed instances, in order. -/
def registerSeq (σ : World) (u : UserV) (inputs : List RegInput) : World × List Nat :=
  match inputs with
  | [] => (σ, [])
  | inp :: rest =>
    let r := register σ inp.commandCharacter inp.room u inp.pageId inp.baseCommand
    let r' := registerSeq r.1 u rest
    (r'.1, r.2 :: r'.2)

/-- Method `HtmlPageBase.close()` invoked on the instance at heap index `r`:
throws on an already-closed page (modelled as `Except.error` carrying the
source's message), otherwise retracts the standalone presentation for a
resolvable viewer and destroys.  The base class defines no `onClose` hook. -/
def closeRef (σ : World) (r : Nat) : Except String (World × List Event) :=
  match σ.heap[r]? with
  | none => .ok (σ, [])
  | some p =>
    if p.closed then
      .error (p.pageId ++ " page already closed for user " ++ p.userId)
    else
      let evs :=
        match σ.users p.userId with
        | some _ => [Event.closeHtmlPage p.userId p.pageId]
        | none => []
      .ok (destroyRef σ r, evs)

/-- Method `HtmlPageBase.tryClose()`: `if (!this.closed) this.close();`. -/
def tryCloseRef (σ : World) (r : Nat) : Except String (World × List Event) :=
  match σ.heap[r]? with
  | none => .ok (σ, [])
  | some p =>
    if !p.closed then closeRef σ r
    else .ok (σ, [])

/-- Method `HtmlPageBase.temporarilyClose()` invoked on the instance at heap index
`r`: retracts the standalone presentation when the viewer resolves; it
writes no page field and no registry entry. -/
def temporarilyCloseRef (σ : World) (r : Nat) : World × List Event :=
  match σ.heap[r]? with
  | none => (σ, [])
  | some p =>
    match σ.users p.userId with
    | some _ => (σ, [Event.closeHtmlPage p.userId p.pageId])
    | none => (σ, [])

/-- Method `HtmlPageBase.onRenameUser(user, oldId)` invoked on the instance at heap
index `i`. -/
def onRenameUser (σ : World) (i : Nat) (u : UserV) (oldId : String) : World :=
  match σ.heap[i]? with
  | none => σ
  | some self =>
    match σ.reg oldId with
    | none => σ
    | some rOld =>
      if oldId = u.id then
        { σ with heap := σ.heap.set i { self with userName := u.name } }
      else
        let σ1 :=
          if (σ.reg u.id).isSome then
            destroyRef σ rOld
          else
            let σa := { σ with heap := σ.heap.set i (setUser self σ.users u) }
            { σa with reg := fun k => if k = u.id then some i else σa.reg k }
        { σ1 with reg := fun k => if k = oldId then none else σ1.reg k }

/-! ## Concrete sample values (used by witnesses) -/

/-- A sample room. -/
def wRoom : Room := { id := "mocha", roomAlias := "" }

/-- A sample user. -/
def wUser : UserV := { id := "annika", name := "Annika", staffVal := false }

/-- A sample freshly constructed page. -/
def wFreshPage : Page :=
  mkPage "." wRoom wUser "tournament-points-shop" "tpshop" (fun _ => none)

/-- A sample page that has already rendered once. -/
def wPage : Page :=
  { wFreshPage with lastRender := "<div>hi</div>" }

/-- A sample environment recomputing the memoized content. -/
def wEnvSame : SendEnv :=
  { beforeSendResult := none, userPresent := true, render := "<div>hi</div>" }

/-- A sample environment computing fresh content. -/
def wEnvNew : SendEnv :=
  { beforeSendResult := none, userPresent := true, render := "<div>hi2</div>" }

/-! ## Basic shape lemmas about `send` -/

/-- If the computed content equals the memoized render and the forced-send
flag is clear, `send` is a silent no-op. -/
theorem send_dedup (p : Page) (env : SendEnv) (b : Bool)
    (h1 : env.render = p.lastRender) (h2 : p.usedCommandAfterLastRender = false) :
    send p env b = (p, []) := by
  by_cases hc : p.closed
  · simp [send, hc]
  by_cases hg : env.beforeSendResult = some false
  · simp [send, hc, hg]
  by_cases hu : env.userPresent
  · simp [send, hc, hg, hu, h1, h2]
  · simp [send, hc, hg, hu]

/-- On the non-aborting path `send` delivers exactly once. -/
theorem send_deliver (p : Page) (env : SendEnv) (b : Bool)
    (hc : p.closed = false) (hg : env.beforeSendResult ≠ some false)
    (hu : env.userPresent = true)
    (hd : ¬(env.render = p.lastRender ∧ p.usedCommandAfterLastRender = false)) :
    (send p env b).1 =
        { p with lastRender := env.render, usedCommandAfterLastRender := false } ∧
      deliveries (send p env b).2 = 1 := by
  by_cases h1 : env.render = p.lastRender
  · have h2 : p.usedCommandAfterLastRender = true := by
      cases hfl : p.usedCommandAfterLastRender
      · exact absurd ⟨h1, hfl⟩ hd
      · rfl
    by_cases hch : p.chatUhtmlName = ""
    · simp [send, hc, hg, hu, h1, h2, hch, deliveries, Event.isDelivery]
    · simp [send, hc, hg, hu, h1, h2, hch, deliveries, Event.isDelivery]
  · by_cases hch : p.chatUhtmlName = ""
    · simp [send, hc, hg, hu, h1, hch, deliveries, Event.isDelivery]
    · simp [send, hc, hg, hu, h1, hch, deliveries, Event.isDelivery]

/-- A `send()` call either aborts, leaving the page untouched and making no
transport call, or updates `lastRender` to the computed render, clears the
forced-send flag, and makes exactly one delivery call. -/
theorem send_shape (p : Page) (env : SendEnv) (b : Bool) :
    send p env b = (p, []) ∨
      ((send p env b).1 =
          { p with lastRender := env.render, usedCommandAfterLastRender := false } ∧
        deliveries (send p env b).2 = 1) := by
  by_cases hc : p.closed
  · left; simp [send, hc]
  by_cases hg : env.beforeSendResult = some false
  · left; simp [send, hc, hg]
  by_cases hu : env.userPresent
  · by_cases hd : env.render = p.lastRender ∧ p.usedCommandAfterLastRender = false
    · left; exact send_dedup p env b hd.1 hd.2
    · right
      exact send_deliver p env b (by simpa using hc) hg (by simpa using hu) hd
  · left; simp [send, hc, hg, hu]

/-- After the memoized render equals `r` with a clear forced-send flag, a
whole sequence of `send()` calls all computing `r` does nothing. -/
theorem sendSeq_dedup (calls : List (SendEnv × Bool)) (p : Page) (r : String)
    (hl : p.lastRender = r) (hf : p.usedCommandAfterLastRender = false)
    (hr : ∀ c ∈ calls, c.1.render = r) :
    sendSeq p calls = (p, []) := by
  induction calls with
  | nil => rfl
  | cons c rest ih =>
    have hc : send p c.1 c.2 = (p, []) :=
      send_dedup p c.1 c.2 (by rw [hr c (by simp), hl]) hf
    simp [sendSeq, hc, ih fun d hd => hr d (by simp [hd])]

/-- Across a sequence of `send()` calls all computing the same render, with
the forced-send flag initially clear, at most one delivery call is made. -/
theorem sendSeq_atMostOne (calls : List (SendEnv × Bool)) (p : Page) (r : String)
    (hf : p.usedCommandAfterLastRender = false)
    (hr : ∀ c ∈ calls, c.1.render = r) :
    deliveries (sendSeq p calls).2 ≤ 1 := by
  induction calls generalizing p with
  | nil => simp [sendSeq, deliveries]
  | cons c rest ih =>
    rcases send_shape p c.1 c.2 with h | ⟨h1, h2⟩
    · have : sendSeq p (c :: rest) = ((sendSeq p rest).1, (sendSeq p rest).2) := by
        simp [sendSeq, h]
      rw [this]
      exact ih p hf fun d hd => hr d (by simp [hd])
    · have htail : sendSeq (send p c.1 c.2).1 rest = ((send p c.1 c.2).1, []) := by
        refine sendSeq_dedup rest _ r ?_ ?_ fun d hd => hr d (by simp [hd])
        · rw [h1]; exact hr c (by simp)
        · rw [h1]
      have : (sendSeq p (c :: rest)).2 = (send p c.1 c.2).2 ++ [] := by
        simp [sendSeq, htail]
      rw [this]
      simp [deliveries] at h2 ⊢
      omega

/-- Claim C1: if the computed render equals `lastRender` and the forced-send
flag is clear, `send()` makes no transport call at all; across any sequence
of `send()` calls whose computed renders are all identical, starting with
the flag clear, at most one delivery call is made; and a `send()` that
reaches the render step (page not closed, guard passes, viewer resolves)
and computes a render differing from `lastRender` makes exactly one
delivery call. -/
theorem send_memoization_contract :
    (∀ (p : Page) (env : SendEnv) (b : Bool),
        env.render = p.lastRender → p.usedCommandAfterLastRender = false →
        (send p env b).2 = []) ∧
      (∀ (calls : List (SendEnv × Bool)) (p : Page) (r : String),
        p.usedCommandAfterLastRender = false →
        (∀ c ∈ calls, c.1.render = r) →
        deliveries (sendSeq p calls).2 ≤ 1) ∧
      (∀ (p : Page) (env : SendEnv) (b : Bool),
        p.closed = false → env.beforeSendResult ≠ some false →
        env.userPresent = true → env.render ≠ p.lastRender →
        deliveries (send p env b).2 = 1) := by
  refine ⟨fun p env b h1 h2 => ?_, fun calls p r hf hr => sendSeq_atMostOne calls p r hf hr,
    fun p env b hc hg hu hd => ?_⟩
  · rw [send_dedup p env b h1 h2]
  · exact (send_deliver p env b hc hg hu (fun h => hd h.1)).2

/-- Witness for `send_memoization_contract` at concrete inputs. -/
theorem send_memoization_contract_witness :
    (send wPage wEnvSame false).2 = [] ∧
      deliveries (sendSeq wPage [(wEnvSame, false), (wEnvSame, true)]).2 ≤ 1 ∧
      deliveries (send wPage wEnvNew false).2 = 1 :=
  ⟨send_memoization_contract.1 wPage wEnvSame false rfl rfl,
    send_memoization_contract.2.1 [(wEnvSame, false), (wEnvSame, true)] wPage "<div>hi</div>"
      rfl (by intro c hc; fin_cases hc <;> rfl),
    send_memoization_contract.2.2 wPage wEnvNew false rfl (by decide) rfl
      (by decide)⟩

/-- Claim C7: every aborting `send()` (closed page, guard veto, unresolvable
viewer, or unchanged content with a clear forced-send flag) leaves the page
— in particular `lastRender` — unchanged and makes no transport call;
`lastRender` is updated (to the computed render) exactly on the path that
proceeds to a delivery, which then makes exactly one delivery call. -/
theorem send_lastRender_frame :
    ∀ (p : Page) (env : SendEnv) (b : Bool),
      ((p.closed = true ∨ env.beforeSendResult = some false ∨ env.userPresent = false ∨
          (env.render = p.lastRender ∧ p.usedCommandAfterLastRender = false)) →
        send p env b = (p, [])) ∧
      (p.closed = false → env.beforeSendResult ≠ some false → env.userPresent = true →
        ¬(env.render = p.lastRender ∧ p.usedCommandAfterLastRender = false) →
        (send p env b).1.lastRender = env.render ∧ deliveries (send p env b).2 = 1) := by
  intro p env b
  constructor
  · rintro (hc | hg | hu | hd)
    · simp [send, hc]
    · simp [send, hg]
    · simp [send, hu]
    · exact send_dedup p env b hd.1 hd.2
  · intro hc hg hu hd
    have h := send_deliver p env b hc hg hu hd
    exact ⟨by rw [h.1], h.2⟩

/-- Witness for `send_lastRender_frame` at concrete inputs. -/
theorem send_lastRender_frame_witness :
    send wPage wEnvSame false = (wPage, []) ∧
      (send wPage wEnvNew false).1.lastRender = "<div>hi2</div>" ∧
      deliveries (send wPage wEnvNew false).2 = 1 :=
  ⟨(send_lastRender_frame wPage wEnvSame false).1 (Or.inr (Or.inr (Or.inr ⟨rfl, rfl⟩))),
    ((send_lastRender_frame wPage wEnvNew false).2 rfl (by decide) rfl
        (fun h => by exact absurd h.1 (by decide))).1,
    ((send_lastRender_frame wPage wEnvNew false).2 rfl (by decide) rfl
        (fun h => by exact absurd h.1 (by decide))).2⟩

/-! ## Fresh pages and `open()` -/

/-- A freshly constructed page is not closed. -/
theorem mkPage_closed (cc : String) (room : Room) (u : UserV) (pid bc : String)
    (users : String → Option UserV) :
    (mkPage cc room u pid bc users).closed = false := rfl

/-- A freshly constructed page has the empty memoized render. -/
theorem mkPage_lastRender (cc : String) (room : Room) (u : UserV) (pid bc : String)
    (users : String → Option UserV) :
    (mkPage cc room u pid bc users).lastRender = "" := rfl

/-- A freshly constructed page has a clear forced-send flag. -/
theorem mkPage_usedCommand (cc : String) (room : Room) (u : UserV) (pid bc : String)
    (users : String → Option UserV) :
    (mkPage cc room u pid bc users).usedCommandAfterLastRender = false := rfl

/-- A freshly constructed page is in standalone mode. -/
theorem mkPage_chat (cc : String) (room : Room) (u : UserV) (pid bc : String)
    (users : String → Option UserV) :
    (mkPage cc room u pid bc users).chatUhtmlName = "" := rfl

/-- A freshly constructed page has the empty base overlay identifier. -/
theorem mkPage_baseChat (cc : String) (room : Room) (u : UserV) (pid bc : String)
    (users : String → Option UserV) :
    (mkPage cc room u pid bc users).baseChatUhtmlName = "" := rfl

/-- A freshly constructed page stores the owner's id. -/
theorem mkPage_userId (cc : String) (room : Room) (u : UserV) (pid bc : String)
    (users : String → Option UserV) :
    (mkPage cc room u pid bc users).userId = u.id := rfl

/-- A freshly constructed page carries the supplied page id. -/
theorem mkPage_pageId (cc : String) (room : Room) (u : UserV) (pid bc : String)
    (users : String → Option UserV) :
    (mkPage cc room u pid bc users).pageId = pid := rfl

/-- Counterexample to claim C6: `open()` does not bypass the memoization
check.  On a freshly constructed page whose computed render equals the
memoized `lastRender` (both empty), with the viewer resolvable and no guard
veto, `open()` makes no delivery at all — contradicting "the delivery
happens regardless of whether the computed render equals the memoized
lastRenderedContent". -/
theorem openPage_no_bypass_counterexample :
    wFreshPage.closed = false ∧ wFreshPage.lastRender = "" ∧
      wFreshPage.usedCommandAfterLastRender = false ∧
      (openPage wFreshPage { beforeSendResult := none, userPresent := true, render := "" }).2
        = [] :=
  ⟨rfl, rfl, rfl, rfl⟩

/-- Claim C6 (amended): `open()` performs an initial `send(true)`.  The
memoization check is still executed, but a freshly constructed page's
`lastRender` is the empty string, so whenever the computed render is
nonempty (and the guard passes and the viewer resolves) the check cannot
suppress it: the open delivers exactly once, as the first render. -/
theorem openPage_initial_send :
    ∀ (cc : String) (room : Room) (u : UserV) (pid bc : String)
      (users : String → Option UserV) (env : SendEnv),
      env.beforeSendResult ≠ some false → env.userPresent = true → env.render ≠ "" →
      (openPage (mkPage cc room u pid bc users) env).2 =
          [Event.sendHtmlPage u.id pid env.render] ∧
        deliveries (openPage (mkPage cc room u pid bc users) env).2 = 1 := by
  intro cc room u pid bc users env hg hu hr
  constructor
  · simp [openPage, send, mkPage_closed, mkPage_lastRender, mkPage_usedCommand,
      mkPage_chat, mkPage_userId, mkPage_pageId, hg, hu, hr]
  · simp [openPage, send, mkPage_closed, mkPage_lastRender, mkPage_usedCommand,
      mkPage_chat, hg, hu, hr, deliveries, Event.isDelivery]

/-- Witness for `openPage_initial_send` at concrete inputs. -/
theorem openPage_initial_send_witness :
    (openPage (mkPage "." wRoom wUser "tournament-points-shop" "tpshop" (fun _ => none))
        wEnvNew).2 = [Event.sendHtmlPage "annika" "tournament-points-shop" "<div>hi2</div>"] :=
  (openPage_initial_send "." wRoom wUser "tournament-points-shop" "tpshop" (fun _ => none)
    wEnvNew (by decide) rfl (by decide)).1

/-! ## Closing -/

/-- A sample already-destroyed page instance. -/
def wClosedPage : Page := { wPage with closed := true }

/-- A sample world holding a closed instance (index 0) and a live instance
(index 1) with an unresolvable viewer. -/
def wWorld : World :=
  { heap := [wClosedPage, wPage]
    reg := fun k => if k = "annika" then some 1 else none
    users := fun _ => none }

/-- Claim C3: `close()` on an already-closed page raises the
lifecycle-violation error (an `Except.error` carrying the source's message,
propagated to the caller), while `tryClose()` on the same page is a silent
no-op returning the world unchanged with no transport call; on a non-closed
page `tryClose()` is exactly `close()`. -/
theorem close_lifecycle_errors :
    ∀ (σ : World) (r : Nat) (p : Page), σ.heap[r]? = some p →
      (p.closed = true →
        closeRef σ r =
            .error (p.pageId ++ " page already closed for user " ++ p.userId) ∧
          tryCloseRef σ r = .ok (σ, [])) ∧
      (p.closed = false → tryCloseRef σ r = closeRef σ r) := by
  intro σ r p h
  refine ⟨fun hc => ⟨?_, ?_⟩, fun hc => ?_⟩
  · simp [closeRef, h, hc]
  · simp [tryCloseRef, h, hc]
  · simp [tryCloseRef, h, hc]

/-- Witness for `close_lifecycle_errors` at concrete inputs. -/
theorem close_lifecycle_errors_witness :
    (closeRef wWorld 0 =
        .error "tournament-points-shop page already closed for user annika" ∧
      tryCloseRef wWorld 0 = .ok (wWorld, [])) ∧
      tryCloseRef wWorld 1 = closeRef wWorld 1 :=
  ⟨(close_lifecycle_errors wWorld 0 wClosedPage rfl).1 rfl,
    (close_lifecycle_errors wWorld 1 wPage rfl).2 rfl⟩

/-- Claim C9: `temporarilyClose()` changes nothing — the world (the page's
every field and the registry) is returned unchanged — and makes at most one
transport call, which is a retraction (never a delivery), and none at all
when the viewer is unresolvable. -/
theorem temporarilyClose_frame :
    ∀ (σ : World) (r : Nat),
      (temporarilyCloseRef σ r).1 = σ ∧
        (temporarilyCloseRef σ r).2.length ≤ 1 ∧
        deliveries (temporarilyCloseRef σ r).2 = 0 ∧
        (∀ p, σ.heap[r]? = some p → σ.users p.userId = none →
          (temporarilyCloseRef σ r).2 = []) := by
  intro σ r
  cases hh : σ.heap[r]? with
  | none =>
    refine ⟨?_, ?_, ?_, ?_⟩ <;> simp [temporarilyCloseRef, hh, deliveries]
  | some p =>
    cases hu : σ.users p.userId with
    | none =>
      refine ⟨?_, ?_, ?_, ?_⟩ <;> simp [temporarilyCloseRef, hh, hu, deliveries]
    | some v =>
      refine ⟨by simp [temporarilyCloseRef, hh, hu], by simp [temporarilyCloseRef, hh, hu],
        by simp [temporarilyCloseRef, hh, hu, deliveries, Event.isDelivery], ?_⟩
      intro q hq hqu
      injection hq with hq
      subst hq
      rw [hu] at hqu
      exact Option.noConfusion hqu

/-- Witness for `temporarilyClose_frame` at concrete inputs. -/
theorem temporarilyClose_frame_witness :
    (temporarilyCloseRef wWorld 1).1 = wWorld ∧ (temporarilyCloseRef wWorld 1).2 = [] :=
  ⟨(temporarilyClose_frame wWorld 1).1,
    (temporarilyClose_frame wWorld 1).2.2.2 wPage rfl rfl⟩

/-! ## Identity rename reconciliation -/

/-- A sample user after a rename (a distinct identity token). -/
def wUser2 : UserV := { id := "anni", name := "Anni", staffVal := false }

/-- A sample page registered under the post-rename identity. -/
def wPage2 : Page := { wPage with userId := "anni", userName := "Anni" }

/-- A sample world where both the pre-rename and the post-rename identity
have a registered page. -/
def wWorld2 : World :=
  { heap := [wPage, wPage2]
    reg := fun k => if k = "annika" then some 0 else if k = "anni" then some 1 else none
    users := fun _ => none }

/-- Claim C5: reconciling a rename from `oldId` to a distinct `newId` that
already has a registered page destroys the `oldId` page (it ends closed),
removes the `oldId` registry entry, and leaves the `newId` page and its
registry entry untouched — the newer identity wins. -/
theorem onRenameUser_collision :
    ∀ (σ : World) (i : Nat) (u : UserV) (oldId : String)
      (self pOld pNew : Page) (rOld rNew : Nat),
      σ.heap[i]? = some self →
      σ.reg oldId = some rOld →
      σ.reg u.id = some rNew →
      oldId ≠ u.id →
      σ.heap[rOld]? = some pOld → pOld.userId = oldId →
      σ.heap[rNew]? = some pNew → pNew.userId = u.id →
      (onRenameUser σ i u oldId).heap[rOld]? = some (destroyPage pOld) ∧
        (destroyPage pOld).closed = true ∧
        (onRenameUser σ i u oldId).reg oldId = none ∧
        (onRenameUser σ i u oldId).reg u.id = some rNew ∧
        (onRenameUser σ i u oldId).heap[rNew]? = some pNew := by
  intro σ i u oldId self pOld pNew rOld rNew hself hro hrn hne hpo hpou hpn hpnu
  have hrr : rOld ≠ rNew := by
    intro h
    rw [h, hpn] at hpo
    injection hpo with hpo
    exact hne (by rw [← hpou, ← hpo, hpnu])
  have hlt : rOld < σ.heap.length := by
    rw [List.getElem?_eq_some] at hpo
    exact hpo.1
  have hσ : onRenameUser σ i u oldId =
      { heap := σ.heap.set rOld (destroyPage pOld)
        reg := fun k =>
          if k = oldId then none
          else if k = pOld.userId then none else σ.reg k
        users := σ.users } := by
    simp only [onRenameUser, hself, hro, hne, if_neg, if_false, hrn, Option.isSome_some,
      if_true, destroyRef, hpo]
  refine hσ ▸ ⟨?_, rfl, ?_, ?_, ?_⟩
  · exact List.getElem?_set_eq_of_lt (destroyPage pOld) hlt
  · simp
  · have h1 : u.id ≠ oldId := fun h => hne h.symm
    have h2 : u.id ≠ pOld.userId := by rw [hpou]; exact h1
    simp [h1, h2, hrn]
  · exact (List.getElem?_set_ne hrr).trans hpn

/-- Witness for `onRenameUser_collision` at concrete inputs. -/
theorem onRenameUser_collision_witness :
    (onRenameUser wWorld2 0 wUser2 "annika").heap[0]? = some (destroyPage wPage) ∧
      (destroyPage wPage).closed = true ∧
      (onRenameUser wWorld2 0 wUser2 "annika").reg "annika" = none ∧
      (onRenameUser wWorld2 0 wUser2 "annika").reg "anni" = some 1 ∧
      (onRenameUser wWorld2 0 wUser2 "annika").heap[1]? = some wPage2 :=
  onRenameUser_collision wWorld2 0 wUser2 "annika" wPage wPage wPage2 0 1
    rfl rfl rfl (by decide) rfl rfl rfl rfl

/-! ## Switching the delivery channel -/

/-- Operation `send` never changes the delivery channel. -/
theorem send_fst_chat (p : Page) (env : SendEnv) (b : Bool) :
    (send p env b).1.chatUhtmlName = p.chatUhtmlName := by
  rcases send_shape p env b with h | ⟨h, _⟩ <;> rw [h]

/-- Operation `send` never changes the base overlay identifier. -/
theorem send_fst_baseChat (p : Page) (env : SendEnv) (b : Bool) :
    (send p env b).1.baseChatUhtmlName = p.baseChatUhtmlName := by
  rcases send_shape p env b with h | ⟨h, _⟩ <;> rw [h]

/-- Operation `setCloseButton` only writes `closeButtonHtml`. -/
theorem setCloseButton_chat (p : Page) (options : Option IQuietPMButtonOptions) :
    (setCloseButton p options).chatUhtmlName = p.chatUhtmlName := by
  unfold setCloseButton; split <;> rfl

/-- Operation `setCloseButton` preserves the base overlay identifier. -/
theorem setCloseButton_baseChat (p : Page) (options : Option IQuietPMButtonOptions) :
    (setCloseButton p options).baseChatUhtmlName = p.baseChatUhtmlName := by
  unfold setCloseButton; split <;> rfl

/-- Operation `setSwitchLocationButton` only writes `switchLocationButtonHtml`. -/
theorem setSwitchLocationButton_chat (p : Page) :
    (setSwitchLocationButton p).chatUhtmlName = p.chatUhtmlName := by
  unfold setSwitchLocationButton; split <;> rfl

/-- Operation `setSwitchLocationButton` preserves the base overlay identifier. -/
theorem setSwitchLocationButton_baseChat (p : Page) :
    (setSwitchLocationButton p).baseChatUhtmlName = p.baseChatUhtmlName := by
  unfold setSwitchLocationButton; split <;> rfl

/-- The delivery channel after one `switchLocation()`: overlay mode clears
the overlay name, standalone mode installs the base overlay identifier. -/
theorem switchLocation_fst_chat (p : Page) (env : SendEnv) :
    (switchLocation p env).1.chatUhtmlName =
      (if p.chatUhtmlName ≠ "" then "" else p.baseChatUhtmlName) := by
  by_cases h : p.chatUhtmlName ≠ "" <;>
    simp [switchLocation, h, send_fst_chat, setCloseButton_chat, setSwitchLocationButton_chat]

/-- Operation `switchLocation` preserves the base overlay identifier. -/
theorem switchLocation_fst_baseChat (p : Page) (env : SendEnv) :
    (switchLocation p env).1.baseChatUhtmlName = p.baseChatUhtmlName := by
  by_cases h : p.chatUhtmlName ≠ "" <;>
    simp [switchLocation, h, send_fst_baseChat, setCloseButton_baseChat,
      setSwitchLocationButton_baseChat]

/-- A sample standalone-mode page whose page type opted into a nonempty
base overlay identifier. -/
def wOverlayCapablePage : Page :=
  { wPage with baseChatUhtmlName := "ttc-shop", showSwitchLocationButton := true }

/-- The overlay name a page of the program can hold: the constructor clears
it, and only `switchLocation` writes it (to the empty string or to the base
overlay identifier). -/
def chatNameReachable (p : Page) : Prop :=
  p.chatUhtmlName = "" ∨ p.chatUhtmlName = p.baseChatUhtmlName

/-- The constructor establishes `chatNameReachable`. -/
theorem chatNameReachable_mkPage (cc : String) (room : Room) (u : UserV)
    (pid bc : String) (users : String → Option UserV) :
    chatNameReachable (mkPage cc room u pid bc users) :=
  Or.inl (mkPage_chat cc room u pid bc users)

/-- Every page produced by `switchLocation` satisfies `chatNameReachable`. -/
theorem chatNameReachable_switchLocation (p : Page) (env : SendEnv) :
    chatNameReachable (switchLocation p env).1 := by
  unfold chatNameReachable
  rw [switchLocation_fst_chat, switchLocation_fst_baseChat]
  by_cases h : p.chatUhtmlName ≠ ""
  · left; rw [if_pos h]
  · right; rw [if_neg h]

/-- Operation `send` preserves `chatNameReachable`. -/
theorem chatNameReachable_send (p : Page) (env : SendEnv) (b : Bool)
    (h : chatNameReachable p) : chatNameReachable (send p env b).1 := by
  unfold chatNameReachable at h ⊢
  rw [send_fst_chat, send_fst_baseChat]
  exact h

/-- Exactly one of the two delivery channels is active. -/
def exactlyOneChannel (p : Page) : Prop :=
  (standaloneActive p = true ∧ overlayActive p = false) ∨
    (standaloneActive p = false ∧ overlayActive p = true)

/-- The two channels are mutually exclusive and exhaustive on every page. -/
theorem channels_exclusive (p : Page) : exactlyOneChannel p := by
  by_cases h : p.chatUhtmlName = "" <;>
    simp [exactlyOneChannel, standaloneActive, overlayActive, h]

/-- Claim C4: on any page whose overlay name is a value `switchLocation` can
itself produce (cleared, or the page's base overlay identifier — every page
of the program is in such a state, since the constructor clears the overlay
name and only `switchLocation` writes it), `switchLocation()` is self-inverse
on the delivery channel: two calls restore the overlay-name field, and after
each call exactly one of the two channels is active. -/
theorem switchLocation_self_inverse :
    ∀ (p : Page) (e1 e2 : SendEnv), p.closed = false →
      chatNameReachable p →
      (switchLocation (switchLocation p e1).1 e2).1.chatUhtmlName = p.chatUhtmlName ∧
        exactlyOneChannel (switchLocation p e1).1 ∧
        exactlyOneChannel (switchLocation (switchLocation p e1).1 e2).1 := by
  intro p e1 e2 hcl hinv
  unfold chatNameReachable at hinv
  refine ⟨?_, channels_exclusive _, channels_exclusive _⟩
  have h1 := switchLocation_fst_chat p e1
  have hb1 := switchLocation_fst_baseChat p e1
  have h2 := switchLocation_fst_chat (switchLocation p e1).1 e2
  rw [h1, hb1] at h2
  by_cases hc0 : p.chatUhtmlName = ""
  · by_cases hb : p.baseChatUhtmlName = ""
    · simp [hc0, hb] at h2
      rw [h2, hc0]
    · simp [hc0, hb] at h2
      rw [h2, hc0]
  · have hcb : p.chatUhtmlName = p.baseChatUhtmlName := hinv.resolve_left hc0
    simp [hc0] at h2
    rw [h2, hcb]

/-- Witness for `switchLocation_self_inverse` at a concrete overlay-capable
page. -/
theorem switchLocation_self_inverse_witness :
    (switchLocation (switchLocation wOverlayCapablePage wEnvNew).1 wEnvSame).1.chatUhtmlName
        = wOverlayCapablePage.chatUhtmlName ∧
      exactlyOneChannel (switchLocation wOverlayCapablePage wEnvNew).1 :=
  ⟨(switchLocation_self_inverse wOverlayCapablePage wEnvNew wEnvSame rfl (Or.inl rfl)).1,
    (switchLocation_self_inverse wOverlayCapablePage wEnvNew wEnvSame rfl (Or.inl rfl)).2.1⟩

/-- Claim C10: on a page with the default empty base overlay identifier, a
`switchLocation()` issued in standalone mode assigns the empty base
identifier to the overlay name, so the delivery channel remains
standalone — the page never actually enters overlay mode. -/
theorem switchLocation_empty_base :
    ∀ (p : Page) (env : SendEnv), p.chatUhtmlName = "" → p.baseChatUhtmlName = "" →
      (switchLocation p env).1.chatUhtmlName = "" ∧
        standaloneActive (switchLocation p env).1 = true := by
  intro p env h hb
  have hc := switchLocation_fst_chat p env
  rw [h, hb] at hc
  simp at hc
  exact ⟨hc, by simp [standaloneActive, hc]⟩

/-- Witness for `switchLocation_empty_base` on a freshly constructed page
(whose base overlay identifier is the default empty string). -/
theorem switchLocation_empty_base_witness :
    (switchLocation wFreshPage wEnvNew).1.chatUhtmlName = "" ∧
      standaloneActive (switchLocation wFreshPage wEnvNew).1 = true :=
  switchLocation_empty_base wFreshPage wEnvNew rfl rfl

/-! ## Button construction -/

/-- Claim C8: with an option set supplied, `getQuietPmButton` passes
`disabled = (options.disabled OR options.selectedAndDisabled) OR
(readonly AND NOT options.enabledReadonly)` to the Button Builder, and the
style it passes carries the border-highlight suffix exactly when
`options.selected OR options.selectedAndDisabled` holds (otherwise the
style is passed through unchanged). -/
theorem getQuietPmButton_resolution :
    ∀ (p : Page) (message label : String) (o : IQuietPMButtonOptions),
      getQuietPmButton p message label (some o) =
        Client.getQuietPmButton p.room message label
          ((o.disabled || o.selectedAndDisabled) || (p.readonly && !o.enabledReadonly))
          (if o.selected || o.selectedAndDisabled then
            (if o.style ≠ "" && !(o.style.endsWith ";") then o.style ++ ";" else o.style) ++
              "border-color: #ffffff;"
          else o.style) := by
  intro p message label o
  obtain ⟨d, er, sel, sad, st⟩ := o
  cases d <;> cases er <;> cases sel <;> cases sad <;> cases hr : p.readonly <;>
    simp [getQuietPmButton, hr]

/-! ## The registry invariant -/

/-- A bound from a successful heap lookup. -/
theorem getElem?_some_lt {α : Type} {l : List α} {i : Nat} {a : α}
    (h : l[i]? = some a) : i < l.length := by
  rw [List.getElem?_eq_some] at h
  exact h.1

/-- No two distinct heap cells hold non-closed pages for the same identity. -/
def liveUnique (σ : World) (uid : String) : Prop :=
  ∀ (i j : Nat) (p q : Page), σ.heap[i]? = some p → σ.heap[j]? = some q →
    p.userId = uid → q.userId = uid → p.closed = false → q.closed = false → i = j

/-- The registry entry for `uid` points at a non-closed page owned by `uid`,
and every non-closed page owned by `uid` is the one the registry points at. -/
def regTracks (σ : World) (uid : String) : Prop :=
  (∀ r : Nat, σ.reg uid = some r →
      ∃ p : Page, σ.heap[r]? = some p ∧ p.userId = uid ∧ p.closed = false) ∧
    (∀ (i : Nat) (p : Page), σ.heap[i]? = some p → p.userId = uid → p.closed = false →
      σ.reg uid = some i)

/-- Invariant `regTracks` forces at most one live page per identity. -/
theorem regTracks.toLiveUnique {σ : World} {uid : String}
    (h : regTracks σ uid) : liveUnique σ uid := by
  intro i j p q hi hj hpu hqu hpc hqc
  have h1 := h.2 i p hi hpu hpc
  have h2 := h.2 j q hj hqu hqc
  rw [h1] at h2
  injection h2

/-- The empty world satisfies the registry invariant. -/
theorem initWorld_regTracks (users : String → Option UserV) (uid : String) :
    regTracks (initWorld users) uid := by
  constructor
  · intro r h
    simp [initWorld] at h
  · intro i p h
    simp [initWorld] at h

/-- What one constructor call (`register`) does: it preserves the registry
invariant, installs the fresh instance under the identity, leaves every
already-closed page of that identity in place, and destroys the previously
registered instance if there was one. -/
theorem register_spec (σ : World) (cc : String) (room : Room) (u : UserV)
    (pid bc : String) (hG : regTracks σ u.id) :
    regTracks (register σ cc room u pid bc).1 u.id ∧
      (register σ cc room u pid bc).1.reg u.id = some (register σ cc room u pid bc).2 ∧
      (register σ cc room u pid bc).1.heap[(register σ cc room u pid bc).2]? =
        some (mkPage cc room u pid bc σ.users) ∧
      (∀ (i : Nat) (p : Page), σ.heap[i]? = some p → p.userId = u.id → p.closed = true →
        (register σ cc room u pid bc).1.heap[i]? = some p) ∧
      (∀ (r0 : Nat) (p0 : Page), σ.reg u.id = some r0 → σ.heap[r0]? = some p0 →
        (register σ cc room u pid bc).1.heap[r0]? = some (destroyPage p0)) := by
  cases h0 : σ.reg u.id with
  | none =>
    have hreg : (register σ cc room u pid bc) =
        ({ σ with
            heap := σ.heap ++ [mkPage cc room u pid bc σ.users]
            reg := fun k => if k = u.id then some σ.heap.length else σ.reg k },
          σ.heap.length) := by
      simp [register, h0]
    rw [hreg]
    refine ⟨⟨?_, ?_⟩, by simp, ?_, ?_, ?_⟩
    · intro r hr
      simp at hr
      subst hr
      exact ⟨mkPage cc room u pid bc σ.users, List.getElem?_concat_length _ _,
        mkPage_userId cc room u pid bc σ.users, mkPage_closed cc room u pid bc σ.users⟩
    · intro i p hi hpu hpc
      have hilen : i < σ.heap.length + 1 := by
        have := getElem?_some_lt hi
        simpa using this
      rcases Nat.lt_or_ge i σ.heap.length with hlt | hge
      · rw [List.getElem?_append_left hlt] at hi
        have := hG.2 i p hi hpu hpc
        rw [h0] at this
        exact Option.noConfusion this
      · have hie : i = σ.heap.length := by omega
        simp [hie]
    · exact List.getElem?_concat_length _ _
    · intro i p hi hpu hpc
      have hlt := getElem?_some_lt hi
      rw [List.getElem?_append_left hlt]
      exact hi
    · intro r1 p1 hr1
      exact Option.noConfusion hr1
  | some r0 =>
    obtain ⟨p0, hp0, hp0u, hp0c⟩ := hG.1 r0 h0
    have hr0lt : r0 < σ.heap.length := getElem?_some_lt hp0
    have hreg : (register σ cc room u pid bc) =
        ({ heap := (σ.heap.set r0 (destroyPage p0)) ++ [mkPage cc room u pid bc σ.users],
           reg := fun k =>
             if k = u.id then some σ.heap.length
             else if k = p0.userId then none else σ.reg k,
           users := σ.users },
          σ.heap.length) := by
      simp [register, h0, destroyRef, hp0]
    rw [hreg]
    have hsetlen : (σ.heap.set r0 (destroyPage p0)).length = σ.heap.length := by simp
    refine ⟨⟨?_, ?_⟩, by simp, ?_, ?_, ?_⟩
    · intro r hr
      simp at hr
      subst hr
      refine ⟨mkPage cc room u pid bc σ.users, ?_,
        mkPage_userId cc room u pid bc σ.users, mkPage_closed cc room u pid bc σ.users⟩
      have := List.getElem?_concat_length (σ.heap.set r0 (destroyPage p0))
        (mkPage cc room u pid bc σ.users)
      rwa [hsetlen] at this
    · intro i p hi hpu hpc
      have hilen : i < σ.heap.length + 1 := by
        have := getElem?_some_lt hi
        simpa using this
      rcases Nat.lt_or_ge i σ.heap.length with hlt | hge
      · rw [List.getElem?_append_left (by omega : i < (σ.heap.set r0 (destroyPage p0)).length)]
          at hi
        by_cases hir : i = r0
        · subst hir
          rw [List.getElem?_set_eq_of_lt _ hr0lt] at hi
          injection hi with hi
          rw [← hi] at hpc
          simp [destroyPage] at hpc
        · rw [List.getElem?_set_ne (fun h => hir h.symm)] at hi
          have := hG.2 i p hi hpu hpc
          rw [h0] at this
          injection this with this
          exact absurd this.symm hir
      · have hie : i = σ.heap.length := by omega
        simp [hie]
    · have := List.getElem?_concat_length (σ.heap.set r0 (destroyPage p0))
        (mkPage cc room u pid bc σ.users)
      rwa [hsetlen] at this
    · intro i p hi hpu hpc
      have hlt := getElem?_some_lt hi
      have hir : i ≠ r0 := by
        intro h
        subst h
        rw [hp0] at hi
        injection hi with hi
        rw [hi, hpc] at hp0c
        exact Bool.noConfusion hp0c
      rw [List.getElem?_append_left (by omega : i < (σ.heap.set r0 (destroyPage p0)).length),
        List.getElem?_set_ne (fun h => hir h.symm)]
      exact hi
    · intro r1 p1 hr1 hp1
      injection hr1 with hr1
      subst hr1
      rw [hp0] at hp1
      injection hp1 with hp1
      subst hp1
      rw [List.getElem?_append_left (by omega : r0 < (σ.heap.set r0 (destroyPage p0)).length)]
      exact List.getElem?_set_eq_of_lt _ hr0lt

/-- Unfolding of one step of `registerSeq`. -/
theorem registerSeq_cons (σ : World) (u : UserV) (inp : RegInput) (rest : List RegInput) :
    registerSeq σ u (inp :: rest) =
      ((registerSeq
          (register σ inp.commandCharacter inp.room u inp.pageId inp.baseCommand).1 u rest).1,
        (register σ inp.commandCharacter inp.room u inp.pageId inp.baseCommand).2 ::
          (registerSeq
            (register σ inp.commandCharacter inp.room u inp.pageId inp.baseCommand).1 u
            rest).2) := rfl

/-- What a whole sequence of constructor calls does, given the registry
invariant at the start: the invariant is preserved, one heap index is
returned per call, already-closed pages of the identity persist untouched,
a previously registered instance ends destroyed, the registry ends pointing
at the heap index returned by the last call (whose page is live), and the
instances of all calls but the last end closed. -/
theorem registerSeq_spec (u : UserV) (inputs : List RegInput) :
    ∀ (σ : World), regTracks σ u.id →
      regTracks (registerSeq σ u inputs).1 u.id ∧
        (registerSeq σ u inputs).2.length = inputs.length ∧
        (∀ (i : Nat) (p : Page), σ.heap[i]? = some p → p.userId = u.id →
          p.closed = true → (registerSeq σ u inputs).1.heap[i]? = some p) ∧
        (∀ (r0 : Nat) (p0 : Page), σ.reg u.id = some r0 → σ.heap[r0]? = some p0 →
          inputs ≠ [] →
          ∃ q : Page, (registerSeq σ u inputs).1.heap[r0]? = some q ∧
            q.userId = u.id ∧ q.closed = true) ∧
        (∀ rl : Nat, (registerSeq σ u inputs).2.getLast? = some rl →
          (registerSeq σ u inputs).1.reg u.id = some rl ∧
            ∃ p : Page, (registerSeq σ u inputs).1.heap[rl]? = some p ∧
              p.userId = u.id ∧ p.closed = false) ∧
        (∀ r ∈ (registerSeq σ u inputs).2.dropLast,
          ∃ p : Page, (registerSeq σ u inputs).1.heap[r]? = some p ∧
            p.userId = u.id ∧ p.closed = true) := by
  induction inputs with
  | nil =>
    intro σ hG
    refine ⟨hG, rfl, fun i p hi _ _ => hi, fun r0 p0 _ _ hne => absurd rfl hne,
      fun rl hrl => ?_, fun r hr => ?_⟩
    · exact Option.noConfusion hrl
    · exact absurd hr (by simp [registerSeq])
  | cons inp rest ih =>
    intro σ hG
    obtain ⟨hG1, hreg1, hheap1, hpersist1, hdestroy1⟩ :=
      register_spec σ inp.commandCharacter inp.room u inp.pageId inp.baseCommand hG
    obtain ⟨ihG, ihlen, ihpersist, ihF, ihlast, ihdrop⟩ :=
      ih (register σ inp.commandCharacter inp.room u inp.pageId inp.baseCommand).1 hG1
    rw [registerSeq_cons]
    refine ⟨ihG, by simpa using ihlen, ?_, ?_, ?_, ?_⟩
    · intro i p hi hpu hpc
      exact ihpersist i p (hpersist1 i p hi hpu hpc) hpu hpc
    · intro r0 p0 hr0 hp0 _
      obtain ⟨q0, hq0, hq0u, hq0c⟩ := hG.1 r0 hr0
      rw [hp0] at hq0
      injection hq0 with hq0
      subst hq0
      have hd : (register σ inp.commandCharacter inp.room u inp.pageId
          inp.baseCommand).1.heap[r0]? = some (destroyPage p0) := hdestroy1 r0 p0 hr0 hp0
      refine ⟨destroyPage p0, ?_, ?_, rfl⟩
      · exact ihpersist r0 (destroyPage p0) hd (by simpa [destroyPage] using hq0u) rfl
      · simpa [destroyPage] using hq0u
    · intro rl hrl
      cases hrest : (registerSeq
          (register σ inp.commandCharacter inp.room u inp.pageId inp.baseCommand).1 u
          rest).2 with
      | nil =>
        rw [hrest] at hrl
        simp at hrl
        subst hrl
        have hrestnil : rest = [] := by
          rw [hrest] at ihlen
          exact List.length_eq_zero.mp ihlen.symm
        subst hrestnil
        simp only [registerSeq]
        exact ⟨hreg1, ⟨_, hheap1, mkPage_userId _ _ _ _ _ _, mkPage_closed _ _ _ _ _ _⟩⟩
      | cons b t =>
        rw [hrest] at hrl
        simp only [List.getLast?_cons_cons] at hrl
        have := ihlast rl (by rw [hrest]; exact hrl)
        exact this
    · intro r hr
      cases hrest : (registerSeq
          (register σ inp.commandCharacter inp.room u inp.pageId inp.baseCommand).1 u
          rest).2 with
      | nil =>
        rw [hrest] at hr
        simp at hr
      | cons b t =>
        rw [hrest] at hr
        rw [List.dropLast_cons₂] at hr
        rcases List.mem_cons.mp hr with hr | hr
        · subst hr
          have hrestne : rest ≠ [] := by
            intro h
            rw [hrest] at ihlen
            rw [h] at ihlen
            simp at ihlen
          exact ihF (register σ inp.commandCharacter inp.room u inp.pageId
              inp.baseCommand).2
            (mkPage inp.commandCharacter inp.room u inp.pageId inp.baseCommand σ.users)
            hreg1 hheap1 hrestne
        · exact ihdrop r (by rw [hrest]; exact hr)

/-- Claim C2: starting from an empty registry, after any sequence of page
constructions for one identity, the registry lookup returns exactly the heap
index handed out by the most recent construction and that instance is live;
every instance from an earlier construction ends with `closed = true`; and
at no point (after any prefix of the sequence) do two distinct non-closed
page instances exist for that identity. -/
theorem register_registry_invariant :
    ∀ (users : String → Option UserV) (u : UserV) (inputs : List RegInput),
      (∀ rl : Nat, (registerSeq (initWorld users) u inputs).2.getLast? = some rl →
        (registerSeq (initWorld users) u inputs).1.reg u.id = some rl ∧
          ∃ p : Page, (registerSeq (initWorld users) u inputs).1.heap[rl]? = some p ∧
            p.userId = u.id ∧ p.closed = false) ∧
        (inputs ≠ [] →
          ∃ rl : Nat, (registerSeq (initWorld users) u inputs).2.getLast? = some rl) ∧
        (∀ r ∈ (registerSeq (initWorld users) u inputs).2.dropLast,
          ∃ p : Page, (registerSeq (initWorld users) u inputs).1.heap[r]? = some p ∧
            p.userId = u.id ∧ p.closed = true) ∧
        (∀ pre : List RegInput, pre <+: inputs →
          liveUnique (registerSeq (initWorld users) u pre).1 u.id) := by
  intro users u inputs
  obtain ⟨hG, hlen, hpersist, hF, hlast, hdrop⟩ :=
    registerSeq_spec u inputs (initWorld users) (initWorld_regTracks users u.id)
  refine ⟨hlast, ?_, hdrop, ?_⟩
  · intro hne
    have : (registerSeq (initWorld users) u inputs).2 ≠ [] := by
      intro h
      rw [h] at hlen
      exact hne (List.length_eq_zero.mp hlen.symm)
    obtain ⟨rl, hrl⟩ := Option.isSome_iff_exists.mp (List.getLast?_isSome.mpr this)
    exact ⟨rl, hrl⟩
  · intro pre hpre
    exact (registerSeq_spec u pre (initWorld users) (initWorld_regTracks users u.id)).1.toLiveUnique

/-- Construction parameters of the first sample `register` call. -/
def wInpA : RegInput :=
  { commandCharacter := ".", room := wRoom, pageId := "tournament-points-shop",
    baseCommand := "tpshop" }

/-- Construction parameters of the second sample `register` call. -/
def wInpB : RegInput :=
  { commandCharacter := ".", room := wRoom, pageId := "tournament-points-shop",
    baseCommand := "tournamentpointsshop" }

/-- Witness for `register_registry_invariant`: after two constructions for
one identity, the registry points at the second instance (heap index 1) and
the first instance (heap index 0) is closed. -/
theorem register_registry_invariant_witness :
    (registerSeq (initWorld (fun _ => none)) wUser [wInpA, wInpB]).1.reg wUser.id
        = some 1 ∧
      (∃ p : Page,
        (registerSeq (initWorld (fun _ => none)) wUser [wInpA, wInpB]).1.heap[0]? = some p ∧
          p.userId = wUser.id ∧ p.closed = true) :=
  ⟨((register_registry_invariant (fun _ => none) wUser [wInpA, wInpB]).1 1 rfl).1,
    (register_registry_invariant (fun _ => none) wUser [wInpA, wInpB]).2.2.1 0
      (by simp [registerSeq, register, initWorld])⟩

end Lanette
